import Mathlib

/-!
# Verification of `src/render/VisualElement.ts`

A shallow embedding of the `VisualElement` class: the value registry
(`values`, `valueSubscriptions`, `latest`), the frame-synchronized
scheduler binding (`sync.render` / `sync.update` / `cancelSync`, with
callbacks identified by function identity), and the mount/unmount
lifecycle.  Maps (`Map<string, ...>` and plain objects) are modelled as
association lists; `MotionValue`s are modelled as identifiers into a
world-level store of current readings, with a subscription entry
`(key, vid)` in a node's `valueSubscriptions` standing for the live
`onChange`/`onRenderRequest` registration made by `subscribeToValue`
(the stored unsubscribe handle removes exactly that registration).
-/

namespace VE

/-- A resolved value: `string | number` in the source (`ResolvedValues`). -/
inductive Resolved where
  | str : String → Resolved
  | num : Int → Resolved
deriving DecidableEq, Repr

/-- Association-list lookup (`Map.get` / property read). -/
def alookup {κ α : Type} [DecidableEq κ] : List (κ × α) → κ → Option α
  | [], _ => none
  | (k', v') :: t, k => if k' = k then some v' else alookup t k

/-- Association-list insert-or-replace (`Map.set` / property write),
preserving insertion order for an existing key. -/
def aset {κ α : Type} [DecidableEq κ] : List (κ × α) → κ → α → List (κ × α)
  | [], k, v => [(k, v)]
  | (k', v') :: t, k, v =>
    if k' = k then (k, v) :: t else (k', v') :: aset t k v

/-- Association-list delete (`Map.delete` / `delete obj[key]`). -/
def aerase {κ α : Type} [DecidableEq κ] : List (κ × α) → κ → List (κ × α)
  | [], _ => []
  | (k', v') :: t, k => if k' = k then aerase t k else (k', v') :: aerase t k

/-- Identity of a callback handed to the frame clock.  Each node owns the
pre-bound closures `triggerRender` and `update`; `renderMethod` is the bare
`this.render` method reference, which is a distinct identity from
`triggerRender`. -/
inductive CbId where
  | triggerRender : Nat → CbId
  | renderMethod : Nat → CbId
  | update : Nat → CbId
deriving DecidableEq, Repr

/-- `sync.render(cb, false, true)` / `sync.update(cb, false, true)`:
enqueue a callback for the next tick, de-duplicated by identity. -/
def syncSchedule (q : List CbId) (c : CbId) : List CbId :=
  if c ∈ q then q else q ++ [c]

/-- `cancelSync.render(cb)` / `cancelSync.update(cb)`: drop the entry with
this identity from the queue. -/
def syncCancel (q : List CbId) (c : CbId) : List CbId :=
  q.filter (fun x => ¬ x = c)

/-- Per-node state of a `VisualElement`. -/
structure NodeState where
  /-- `depth`, fixed at construction. -/
  depth : Nat
  /-- `element`: the host instance, set by `mount`. -/
  element : Option Nat
  /-- `current`: alias for `element`. -/
  current : Option Nat
  /-- `latest`: the resolved-value snapshot. -/
  latest : List (String × Resolved)
  /-- `values`: key → MotionValue id. -/
  values : List (String × Nat)
  /-- `valueSubscriptions`: key → the MotionValue id whose
  `onChange`/`onRenderRequest` registrations the stored unsubscribe
  handle would remove. -/
  valueSubscriptions : List (String × Nat)
  /-- `config.onUpdate` presence (the config is replaced wholesale). -/
  onUpdate : Bool
deriving DecidableEq, Repr

/-- The world: all nodes, the MotionValue store, and the two frame-clock
phase queues shared by every node. -/
structure World where
  nodes : List (Nat × NodeState)
  mv : List (Nat × Resolved)
  nextV : Nat
  updateQueue : List CbId
  renderQueue : List CbId
deriving DecidableEq, Repr

/-- `new VisualElement(parent?)`: depth is `0` without a parent, else
`parent.depth + 1`; everything else starts empty. -/
def mkNode (parent : Option NodeState) : NodeState :=
  { depth := match parent with
      | some p => p.depth + 1
      | none => 0
    element := none
    current := none
    latest := []
    values := []
    valueSubscriptions := []
    onUpdate := false }

/-- Apply `f` to the state of node `n`. -/
def modifyNode (w : World) (n : Nat) (f : NodeState → NodeState) : World :=
  { w with nodes := w.nodes.map (fun p => if p.1 = n then (p.1, f p.2) else p) }

/-- `value.get()`: the MotionValue's current reading. -/
def mvGet (w : World) (v : Nat) : Resolved :=
  (alookup w.mv v).getD (Resolved.num 0)

/-- `subscribeToValue(key, value)`: register `onChange` and
`onRenderRequest` on the value and store the combined unsubscribe handle. -/
def subscribeToValue (ns : NodeState) (k : String) (v : Nat) : NodeState :=
  { ns with valueSubscriptions := aset ns.valueSubscriptions k v }

/-- `removeValue(key)` on the node state: call the unsubscribe handle if
present, then delete the key from `values`, `latest`, `valueSubscriptions`. -/
def removeValueNS (ns : NodeState) (k : String) : NodeState :=
  { ns with
    values := aerase ns.values k
    latest := aerase ns.latest k
    valueSubscriptions := aerase ns.valueSubscriptions k }

/-- `hasValue(key)`. -/
def hasValue (w : World) (n : Nat) (k : String) : Bool :=
  match alookup w.nodes n with
  | some ns => (alookup ns.values k).isSome
  | none => false

/-- `removeValue(key)`. -/
def removeValue (w : World) (n : Nat) (k : String) : World :=
  modifyNode w n (fun ns => removeValueNS ns k)

/-- `addValue(key, value)`: remove any prior binding, store the value,
snapshot its current reading into `latest[key]`, and subscribe now iff
`this.element` is set. -/
def addValue (w : World) (n : Nat) (k : String) (v : Nat) : World :=
  let w1 := if hasValue w n k then removeValue w n k else w
  modifyNode w1 n (fun ns =>
    let ns1 := { ns with
      values := aset ns.values k v
      latest := aset ns.latest k (mvGet w1 v) }
    if ns1.element.isSome then subscribeToValue ns1 k v else ns1)

/-- `getValue(key, defaultValue?)`: the bound value if present; else, with
a default, a freshly constructed MotionValue registered via `addValue`;
else `undefined`. -/
def getValue (w : World) (n : Nat) (k : String) (defaultValue : Option Resolved) :
    World × Option Nat :=
  match alookup w.nodes n with
  | none => (w, none)
  | some ns =>
    match alookup ns.values k with
    | some v => (w, some v)
    | none =>
      match defaultValue with
      | some d =>
        let v := w.nextV
        let w1 := { w with mv := aset w.mv v d, nextV := w.nextV + 1 }
        (addValue w1 n k v, some v)
      | none => (w, none)

/-- `getInstance()`: returns `this.element`. -/
def getInstance (w : World) (n : Nat) : Option Nat :=
  (alookup w.nodes n).bind (fun ns => ns.element)

/-- `updateConfig(config)`: replace the config wholesale. -/
def updateConfig (w : World) (n : Nat) (onUpd : Bool) : World :=
  modifyNode w n (fun ns => { ns with onUpdate := onUpd })

/-- `setSingleStaticValue(key, value)`: write directly into `latest`. -/
def setSingleStaticValue (ns : NodeState) (k : String) (v : Resolved) : NodeState :=
  { ns with latest := aset ns.latest k v }

/-- `setStaticValues(key, value)`: the single-key form. -/
def setStaticValue (w : World) (n : Nat) (k : String) (v : Resolved) : World :=
  modifyNode w n (fun ns => setSingleStaticValue ns k v)

/-- `setStaticValues(values)`: the batch form, applying
`setSingleStaticValue` for every entry of the mapping. -/
def setStaticValues (w : World) (n : Nat) (kvs : List (String × Resolved)) : World :=
  modifyNode w n (fun ns => kvs.foldl (fun acc p => setSingleStaticValue acc p.1 p.2) ns)

/-- `scheduleRender()`: `sync.render(this.triggerRender, false, true)`. -/
def scheduleRender (w : World) (n : Nat) : World :=
  { w with renderQueue := syncSchedule w.renderQueue (CbId.triggerRender n) }

/-- `mount(element)` on the node state, after the invariant has passed:
store the element (also as `current`) and subscribe to every pre-existing
MotionValue via `forEachValue`. -/
def mountNS (ns : NodeState) (e : Nat) : NodeState :=
  let ns1 := { ns with element := some e, current := some e }
  ns1.values.foldl (fun acc p => subscribeToValue acc p.1 p.2) ns1

/-- The error raised by `invariant` in `mount` when the element is null. -/
inductive VErr where
  | configurationError
deriving DecidableEq, Repr

/-- `mount(element)`: `invariant(!!element, "No ref found...")` throws on a
null element; otherwise store it and subscribe all tracked values. -/
def mount (w : World) (n : Nat) (e : Option Nat) : Except VErr World :=
  match e with
  | none => Except.error VErr.configurationError
  | some el => Except.ok (modifyNode w n (fun ns => mountNS ns el))

/-- `unmount()` on the node state:
`forEachValue((_, key) => this.removeValue(key))`. -/
def unmountNS (ns : NodeState) : NodeState :=
  ns.values.foldl (fun acc p => removeValueNS acc p.1) ns

/-- `unmount()`: remove every value, then `cancelSync.update(this.update)`
and `cancelSync.render(this.render)` — note the latter cancels the bare
method identity, not the `triggerRender` closure that `scheduleRender`
enqueues.  The element is not cleared. -/
def unmount (w : World) (n : Nat) : World :=
  let w1 := modifyNode w n unmountNS
  { w1 with
    updateQueue := syncCancel w1.updateQueue (CbId.update n)
    renderQueue := syncCancel w1.renderQueue (CbId.renderMethod n) }

/-- The `ref` callback: a non-null element mounts, null unmounts.  (The
external-ref forwarding below it is outside this model.) -/
def refCall (w : World) (n : Nat) (e : Option Nat) : World :=
  match e with
  | some el => modifyNode w n (fun ns => mountNS ns el)
  | none => unmount w n

/-- A MotionValue's set: store the new reading, then fire every live
`onChange` registration — each subscribed `(key, v)` entry writes
`latest[key]` and, if `config.onUpdate` is set at that moment, schedules
the node's pre-bound `update` on the update phase (de-duplicated). -/
def notifyChange (w : World) (v : Nat) (newVal : Resolved) : World :=
  let w1 := { w with mv := aset w.mv v newVal }
  let w2 := { w1 with
    nodes := w1.nodes.map (fun (p : Nat × NodeState) =>
      (p.1, p.2.valueSubscriptions.foldl
        (fun (acc : NodeState) (q : String × Nat) =>
          if q.2 = v then { acc with latest := aset acc.latest q.1 newVal } else acc)
        p.2)) }
  w2.nodes.foldl
    (fun (acc : World) (p : Nat × NodeState) =>
      if p.2.onUpdate ∧ p.2.valueSubscriptions.any (fun q => q.2 == v)
      then { acc with updateQueue := syncSchedule acc.updateQueue (CbId.update p.1) }
      else acc)
    w2

/-- A MotionValue's render request: every live `onRenderRequest`
registration is the node's `scheduleRender`. -/
def notifyRenderRequest (w : World) (v : Nat) : World :=
  w.nodes.foldl
    (fun (acc : World) (p : Nat × NodeState) =>
      if p.2.valueSubscriptions.any (fun q => q.2 == v)
      then { acc with renderQueue := syncSchedule acc.renderQueue (CbId.triggerRender p.1) }
      else acc)
    w

/-- Observable outcome of one queued callback firing at the tick. -/
inductive TickEvent where
  | rendered : Nat → TickEvent
  | updated : Nat → TickEvent
  | updateThrew : Nat → TickEvent
deriving DecidableEq, Repr

/-- Fire one queued callback.  `triggerRender` calls `this.render()`; the
pre-bound `update` calls `this.config.onUpdate!(this.latest)` — a TypeError
if `onUpdate` is absent at that moment. -/
def runCb (w : World) (c : CbId) : TickEvent :=
  match c with
  | CbId.triggerRender n => TickEvent.rendered n
  | CbId.renderMethod n => TickEvent.rendered n
  | CbId.update n =>
    match alookup w.nodes n with
    | some ns => if ns.onUpdate then TickEvent.updated n else TickEvent.updateThrew n
    | none => TickEvent.updateThrew n

/-- One frame tick: the update phase fires strictly before the render
phase, and both queues empty. -/
def runTick (w : World) : List TickEvent × World :=
  (w.updateQueue.map (runCb w) ++ w.renderQueue.map (runCb w),
   { w with updateQueue := [], renderQueue := [] })

/-- The subscription entry currently stored for key `k` of node `n`. -/
def subLookup (w : World) (n : Nat) (k : String) : Option Nat :=
  (alookup w.nodes n).bind (fun ns => alookup ns.valueSubscriptions k)

/-- The snapshot entry currently stored for key `k` of node `n`. -/
def latestLookup (w : World) (n : Nat) (k : String) : Option Resolved :=
  (alookup w.nodes n).bind (fun ns => alookup ns.latest k)

/-- A chain of nested constructions: `chain 0` is a root, `chain (i+1)` is
constructed with `chain i` as parent. -/
def chain : Nat → NodeState
  | 0 => mkNode none
  | i + 1 => mkNode (some (chain i))

/-- A world with one freshly constructed, never-mounted root node `0` and
two MotionValues: `0` reading `a` and `1` reading `b`. -/
def freshWorld (a b : Resolved) : World :=
  { nodes := [(0, mkNode none)]
    mv := [(0, a), (1, b)]
    nextV := 2
    updateQueue := []
    renderQueue := [] }

/-- `freshWorld a b` with its node mounted on host instance `1`. -/
def mountedWorld (a b : Resolved) : World :=
  { nodes := [(0, mountNS (mkNode none) 1)]
    mv := [(0, a), (1, b)]
    nextV := 2
    updateQueue := []
    renderQueue := [] }

/-- A world with one freshly constructed root node `0` mounted on host
instance `1`, and two MotionValues `v1 ↦ a`, `v2 ↦ b`. -/
def pairWorld (v1 v2 : Nat) (a b : Resolved) : World :=
  { nodes := [(0, mountNS (mkNode none) 1)]
    mv := [(v1, a), (v2, b)]
    nextV := v1 + v2 + 1
    updateQueue := []
    renderQueue := [] }

/-- A world with two freshly constructed root nodes `0` and `1`, both
mounted on host instance `1`, and one MotionValue `0` reading `r`. -/
def twoNodeWorld (r : Resolved) : World :=
  { nodes := [(0, mountNS (mkNode none) 1), (1, mountNS (mkNode none) 1)]
    mv := [(0, r)]
    nextV := 1
    updateQueue := []
    renderQueue := [] }

/-! ## Helper lemmas about the map operations and per-field behaviour -/

theorem alookup_aset {κ α : Type} [DecidableEq κ] (l : List (κ × α)) (k k' : κ) (v : α) :
    alookup (aset l k' v) k = if k' = k then some v else alookup l k := by
  induction l with
  | nil => simp [aset, alookup]
  | cons p t ih =>
    obtain ⟨a, b⟩ := p
    by_cases h1 : a = k'
    · subst h1
      by_cases h2 : a = k
      · subst h2
        simp [aset, alookup]
      · simp [aset, alookup, h2]
    · by_cases h2 : a = k
      · subst h2
        have h3 : ¬ k' = a := fun he => h1 he.symm
        simp [aset, alookup, h1, h3]
      · simp [aset, alookup, h1, h2, ih]

theorem alookup_aerase {κ α : Type} [DecidableEq κ] (l : List (κ × α)) (k k' : κ) :
    alookup (aerase l k') k = if k' = k then none else alookup l k := by
  induction l with
  | nil => simp [aerase, alookup]
  | cons p t ih =>
    obtain ⟨a, b⟩ := p
    by_cases h1 : a = k'
    · subst h1
      by_cases h2 : a = k
      · subst h2
        simpa [aerase] using ih
      · simpa [aerase, alookup, h2] using ih
    · by_cases h2 : a = k
      · subst h2
        have h3 : ¬ k' = a := fun he => h1 he.symm
        simp [aerase, alookup, h1, h3]
      · simpa [aerase, alookup, h1, h2] using ih

theorem alookup_modifyNode_self (w : World) (n : Nat) (f : NodeState → NodeState) :
    alookup (modifyNode w n f).nodes n = (alookup w.nodes n).map f := by
  show alookup (w.nodes.map _) n = _
  induction w.nodes with
  | nil => rfl
  | cons p t ih =>
    obtain ⟨a, b⟩ := p
    rw [List.map_cons]
    by_cases h1 : a = n
    · subst h1
      show alookup ((if a = a then (a, f b) else (a, b)) :: _) a = _
      rw [if_pos rfl]
      simp [alookup]
    · show alookup ((if a = n then (a, f b) else (a, b)) :: _) n = _
      rw [if_neg h1]
      simp [alookup, h1, ih]

theorem alookup_modifyNode_ne (w : World) (n m : Nat) (f : NodeState → NodeState)
    (h : m ≠ n) :
    alookup (modifyNode w n f).nodes m = alookup w.nodes m := by
  show alookup (w.nodes.map _) m = _
  induction w.nodes with
  | nil => rfl
  | cons p t ih =>
    obtain ⟨a, b⟩ := p
    rw [List.map_cons]
    by_cases h1 : a = n
    · subst h1
      show alookup ((if a = a then (a, f b) else (a, b)) :: _) m = _
      rw [if_pos rfl]
      have h2 : ¬ a = m := fun he => h he.symm
      simp [alookup, h2, ih]
    · show alookup ((if a = n then (a, f b) else (a, b)) :: _) m = _
      rw [if_neg h1]
      by_cases h2 : a = m
      · subst h2
        simp [alookup]
      · simp [alookup, h2, ih]

theorem alookup_modifyNode_map {α : Type} (w : World) (n m : Nat)
    (f : NodeState → NodeState) (g : NodeState → α) (hf : ∀ ns, g (f ns) = g ns) :
    (alookup (modifyNode w n f).nodes m).map g = (alookup w.nodes m).map g := by
  by_cases h : m = n
  · subst h
    rw [alookup_modifyNode_self]
    cases alookup w.nodes m with
    | none => rfl
    | some ns => simp [hf]
  · rw [alookup_modifyNode_ne w n m f h]

theorem map_fix {α : Type} (f : α → α) (l : List α) (h : ∀ a ∈ l, f a = a) :
    l.map f = l := by
  induction l with
  | nil => rfl
  | cons p t ih => simp_all

theorem fold_subscribe_eq (l : List (String × Nat)) (ns : NodeState) :
    l.foldl (fun acc p => subscribeToValue acc p.1 p.2) ns
      = { ns with valueSubscriptions :=
            l.foldl (fun acc p => aset acc p.1 p.2) ns.valueSubscriptions } := by
  induction l generalizing ns with
  | nil => rfl
  | cons p t ih =>
    rw [List.foldl_cons, ih]
    simp [subscribeToValue]

theorem fold_remove_eq (l : List (String × Nat)) (ns : NodeState) :
    l.foldl (fun acc p => removeValueNS acc p.1) ns
      = { ns with
          values := l.foldl (fun acc p => aerase acc p.1) ns.values
          latest := l.foldl (fun acc p => aerase acc p.1) ns.latest
          valueSubscriptions :=
            l.foldl (fun acc p => aerase acc p.1) ns.valueSubscriptions } := by
  induction l generalizing ns with
  | nil => rfl
  | cons p t ih =>
    rw [List.foldl_cons, ih]
    simp [removeValueNS]

theorem fold_static_eq (l : List (String × Resolved)) (ns : NodeState) :
    l.foldl (fun acc p => setSingleStaticValue acc p.1 p.2) ns
      = { ns with latest := l.foldl (fun acc p => aset acc p.1 p.2) ns.latest } := by
  induction l generalizing ns with
  | nil => rfl
  | cons p t ih =>
    rw [List.foldl_cons, ih]
    simp [setSingleStaticValue]

theorem fold_aerase_none {α : Type} (l : List (String × Nat)) (vs : List (String × α))
    (k : String) (h : alookup vs k = none) :
    alookup (l.foldl (fun acc p => aerase acc p.1) vs) k = none := by
  induction l generalizing vs with
  | nil => exact h
  | cons p t ih =>
    rw [List.foldl_cons]
    exact ih _ (by rw [alookup_aerase]; split <;> simp [h])

theorem fold_aerase_mem {α : Type} (l : List (String × Nat)) (vs : List (String × α))
    (k : String) (h : ∃ p ∈ l, p.1 = k) :
    alookup (l.foldl (fun acc p => aerase acc p.1) vs) k = none := by
  induction l generalizing vs with
  | nil => obtain ⟨p, hp, _⟩ := h; cases hp
  | cons p t ih =>
    rw [List.foldl_cons]
    obtain ⟨q, hq, hqk⟩ := h
    rcases List.mem_cons.mp hq with h1 | h1
    · subst h1
      exact fold_aerase_none t _ k (by rw [alookup_aerase, if_pos hqk])
    · exact ih _ ⟨q, h1, hqk⟩

theorem mem_aerase {κ α : Type} [DecidableEq κ] (l : List (κ × α)) (k : κ) (q : κ × α)
    (h : q ∈ aerase l k) : q ∈ l ∧ ¬ q.1 = k := by
  induction l with
  | nil => cases h
  | cons p t ih =>
    obtain ⟨a, b⟩ := p
    by_cases h1 : a = k
    · rw [aerase, if_pos h1] at h
      obtain ⟨h2, h3⟩ := ih h
      exact ⟨List.mem_cons_of_mem _ h2, h3⟩
    · rw [aerase, if_neg h1] at h
      rcases List.mem_cons.mp h with h2 | h2
      · subst h2
        exact ⟨List.mem_cons_self _ _, h1⟩
      · obtain ⟨h3, h4⟩ := ih h2
        exact ⟨List.mem_cons_of_mem _ h3, h4⟩

theorem fold_aerase_nil {α : Type} (l : List (String × Nat)) (vs : List (String × α))
    (h : ∀ q ∈ vs, ∃ p ∈ l, q.1 = p.1) :
    l.foldl (fun acc p => aerase acc p.1) vs = [] := by
  induction l generalizing vs with
  | nil =>
    cases vs with
    | nil => rfl
    | cons q t =>
      obtain ⟨p, hp, _⟩ := h q (List.mem_cons_self _ _)
      cases hp
  | cons p t ih =>
    rw [List.foldl_cons]
    refine ih _ (fun q hq => ?_)
    obtain ⟨hq1, hq2⟩ := mem_aerase vs p.1 q hq
    obtain ⟨p', hp', hp'k⟩ := h q hq1
    rcases List.mem_cons.mp hp' with h2 | h2
    · subst h2
      exact absurd hp'k hq2
    · exact ⟨p', h2, hp'k⟩

theorem unmountNS_values (ns : NodeState) : (unmountNS ns).values = [] := by
  rw [unmountNS, fold_remove_eq]
  exact fold_aerase_nil ns.values ns.values (fun q hq => ⟨q, hq, rfl⟩)

theorem unmountNS_element (ns : NodeState) : (unmountNS ns).element = ns.element := by
  rw [unmountNS, fold_remove_eq]

theorem unmountNS_depth (ns : NodeState) : (unmountNS ns).depth = ns.depth := by
  rw [unmountNS, fold_remove_eq]

theorem mountNS_element (ns : NodeState) (e : Nat) : (mountNS ns e).element = some e := by
  rw [mountNS, fold_subscribe_eq]

theorem mountNS_depth (ns : NodeState) (e : Nat) : (mountNS ns e).depth = ns.depth := by
  rw [mountNS, fold_subscribe_eq]

theorem alookup_map_entry (l : List (Nat × NodeState)) (h : NodeState → NodeState) (m : Nat) :
    alookup (l.map (fun p => (p.1, h p.2))) m = (alookup l m).map h := by
  induction l with
  | nil => rfl
  | cons p t ih =>
    obtain ⟨a, b⟩ := p
    rw [List.map_cons]
    by_cases h1 : a = m
    · subst h1
      simp [alookup]
    · simp [alookup, h1, ih]

theorem notify_fold_nodes (l : List (Nat × NodeState)) (w : World) (v : Nat) :
    (l.foldl (fun (acc : World) (p : Nat × NodeState) =>
      if p.2.onUpdate ∧ p.2.valueSubscriptions.any (fun q => q.2 == v)
      then { acc with updateQueue := syncSchedule acc.updateQueue (CbId.update p.1) }
      else acc) w).nodes = w.nodes := by
  induction l generalizing w with
  | nil => rfl
  | cons p t ih =>
    rw [List.foldl_cons, ih]
    split <;> rfl

theorem fold_latest_depth (l : List (String × Nat)) (ns : NodeState) (v : Nat) (x : Resolved) :
    (l.foldl (fun (acc : NodeState) (q : String × Nat) =>
      if q.2 = v then { acc with latest := aset acc.latest q.1 x } else acc) ns).depth
      = ns.depth := by
  induction l generalizing ns with
  | nil => rfl
  | cons p t ih =>
    rw [List.foldl_cons, ih]
    split <;> rfl

/-! ## Claim theorems -/

/-- C9: `depth` is `0` for a node constructed with no parent and
`parent.depth + 1` otherwise; a chain of nested constructions gives the
`(i+1)`-st node depth `i`; and `depth` is immutable: every operation of the
class leaves every node's depth unchanged. -/
theorem depth_construction_chain_and_immutable :
    (mkNode none).depth = 0
  ∧ (∀ p : NodeState, (mkNode (some p)).depth = p.depth + 1)
  ∧ (∀ i : Nat, (chain i).depth = i)
  ∧ (∀ (w : World) (n m : Nat) (k : String) (v : Nat),
      (alookup (addValue w n k v).nodes m).map NodeState.depth
        = (alookup w.nodes m).map NodeState.depth)
  ∧ (∀ (w : World) (n m : Nat) (k : String),
      (alookup (removeValue w n k).nodes m).map NodeState.depth
        = (alookup w.nodes m).map NodeState.depth)
  ∧ (∀ (w : World) (n m e : Nat),
      (alookup (refCall w n (some e)).nodes m).map NodeState.depth
        = (alookup w.nodes m).map NodeState.depth)
  ∧ (∀ (w : World) (n m : Nat),
      (alookup (unmount w n).nodes m).map NodeState.depth
        = (alookup w.nodes m).map NodeState.depth)
  ∧ (∀ (w : World) (n m : Nat) (b : Bool),
      (alookup (updateConfig w n b).nodes m).map NodeState.depth
        = (alookup w.nodes m).map NodeState.depth)
  ∧ (∀ (w : World) (n m : Nat) (kvs : List (String × Resolved)),
      (alookup (setStaticValues w n kvs).nodes m).map NodeState.depth
        = (alookup w.nodes m).map NodeState.depth)
  ∧ (∀ (w : World) (n : Nat), (scheduleRender w n).nodes = w.nodes)
  ∧ (∀ (w : World) (v m : Nat) (x : Resolved),
      (alookup (notifyChange w v x).nodes m).map NodeState.depth
        = (alookup w.nodes m).map NodeState.depth) := by
  refine ⟨rfl, fun p => rfl, ?_, ?_, ?_, ?_, ?_, ?_, ?_, fun w n => rfl, ?_⟩
  · intro i
    induction i with
    | zero => rfl
    | succ j ih => simp [chain, mkNode, ih]
  · intro w n m k v
    show (alookup (modifyNode (if hasValue w n k then removeValue w n k else w) n _).nodes m).map
        NodeState.depth = _
    rw [alookup_modifyNode_map _ _ _ _ NodeState.depth ?hf]
    case hf =>
      intro ns
      dsimp only
      split <;> rfl
    by_cases hv : hasValue w n k
    · rw [if_pos hv]
      exact alookup_modifyNode_map _ _ _ _ _ (fun ns => rfl)
    · rw [if_neg hv]
  · intro w n m k
    exact alookup_modifyNode_map _ _ _ _ _ (fun ns => rfl)
  · intro w n m e
    exact alookup_modifyNode_map _ _ _ _ _ (fun ns => mountNS_depth ns e)
  · intro w n m
    show (alookup (modifyNode w n unmountNS).nodes m).map NodeState.depth = _
    exact alookup_modifyNode_map _ _ _ _ _ unmountNS_depth
  · intro w n m b
    exact alookup_modifyNode_map _ _ _ _ _ (fun ns => rfl)
  · intro w n m kvs
    refine alookup_modifyNode_map _ _ _ _ _ (fun ns => ?_)
    rw [fold_static_eq]
  · intro w v m x
    show ((alookup (List.foldl _ _ _ : World).nodes m).map NodeState.depth) = _
    rw [notify_fold_nodes]
    show (alookup (List.map _ w.nodes) m).map NodeState.depth = _
    rw [alookup_map_entry w.nodes (fun b =>
      b.valueSubscriptions.foldl
        (fun (acc : NodeState) (q : String × Nat) =>
          if q.2 = v then { acc with latest := aset acc.latest q.1 x } else acc) b) m]
    cases alookup w.nodes m with
    | none => rfl
    | some ns => simp [fold_latest_depth]

/-- C1: evaluating the code at the failing input.  Node `0` schedules a
render (enqueuing its `triggerRender`), then unmounts before the tick; the
tick still renders node `0`, because `unmount` cancels the never-scheduled
`this.render` identity instead of `triggerRender`.  The second conjunct
shows the update half and the per-node scoping do work: a pending `update`
entry for node `0` is cancelled by its unmount while the sibling node `1`'s
scheduled render still fires. -/
theorem unmount_misses_scheduled_render :
    (runTick (unmount (scheduleRender (scheduleRender (twoNodeWorld (Resolved.num 5)) 0) 1) 0)).1
      = [TickEvent.rendered 0, TickEvent.rendered 1]
  ∧ (runTick (unmount (scheduleRender (notifyChange
        (updateConfig (addValue (twoNodeWorld (Resolved.num 5)) 0 "x" 0) 0 true)
        0 (Resolved.num 7)) 1) 0)).1
      = [TickEvent.rendered 1] :=
  ⟨rfl, rfl⟩

theorem unmount_noop_of (w : World) (n : Nat)
    (h1 : ∀ p ∈ w.nodes, p.1 = n → p.2.values = [])
    (h2 : CbId.update n ∉ w.updateQueue)
    (h3 : CbId.renderMethod n ∉ w.renderQueue) :
    unmount w n = w := by
  have hcancel : ∀ (q : List CbId) (c : CbId), c ∉ q → syncCancel q c = q := by
    intro q c hc
    rw [syncCancel]
    refine List.filter_eq_self.mpr (fun a ha => ?_)
    have : ¬ a = c := fun he => hc (he ▸ ha)
    simp [this]
  have hnodes : (modifyNode w n unmountNS).nodes = w.nodes := by
    show w.nodes.map _ = w.nodes
    refine map_fix _ _ (fun p hp => ?_)
    obtain ⟨a, b⟩ := p
    by_cases hpn : a = n
    · have hv := h1 (a, b) hp hpn
      show (if a = n then (a, unmountNS b) else (a, b)) = (a, b)
      rw [if_pos hpn]
      have hb : unmountNS b = b := by
        rw [unmountNS, hv]
        rfl
      rw [hb]
    · show (if a = n then (a, unmountNS b) else (a, b)) = (a, b)
      rw [if_neg hpn]
  show ({ modifyNode w n unmountNS with
    updateQueue := syncCancel (modifyNode w n unmountNS).updateQueue (CbId.update n)
    renderQueue := syncCancel (modifyNode w n unmountNS).renderQueue (CbId.renderMethod n) }
      : World) = w
  have hu : (modifyNode w n unmountNS).updateQueue = w.updateQueue := rfl
  have hr : (modifyNode w n unmountNS).renderQueue = w.renderQueue := rfl
  rw [hu, hr, hcancel _ _ h2, hcancel _ _ h3]
  show ({ w with nodes := (modifyNode w n unmountNS).nodes } : World) = w
  rw [hnodes]

theorem hasValue_unmount (w : World) (n : Nat) (k : String) :
    hasValue (unmount w n) n k = false := by
  have hn : (unmount w n).nodes = (modifyNode w n unmountNS).nodes := rfl
  rw [hasValue, hn, alookup_modifyNode_self]
  cases alookup w.nodes n with
  | none => rfl
  | some ns => simp [unmountNS_values ns, alookup]

/-- C2 counterexample: a node that has never been mounted (so it is in the
`Unmounted` state, as `getInstance = none` shows) holds a value binding;
calling `unmount` on it removes that binding, so `unmount` while already
unmounted is not a state no-op as the claim asserts. -/
theorem unmount_while_unmounted_removes_bindings :
    getInstance (addValue (freshWorld (Resolved.num 5) (Resolved.num 6)) 0 "x" 0) 0 = none
  ∧ hasValue (addValue (freshWorld (Resolved.num 5) (Resolved.num 6)) 0 "x" 0) 0 "x" = true
  ∧ hasValue (unmount (addValue (freshWorld (Resolved.num 5) (Resolved.num 6)) 0 "x" 0) 0) 0 "x"
      = false :=
  ⟨rfl, rfl, rfl⟩

/-- C2 (amended): `unmount` while already unmounted raises no error, but it
is not unconditionally a state no-op: it always performs the full teardown,
leaving the node with no value bindings whatever state it was in.  It
leaves the world unchanged exactly when the node has no bound values and no
matching queue entries — in particular, a second `unmount` directly after
an `unmount` is a no-op. -/
theorem unmount_teardown_and_conditional_noop (w : World) (n : Nat)
    (h1 : ∀ p ∈ w.nodes, p.1 = n → p.2.values = [])
    (h2 : CbId.update n ∉ w.updateQueue)
    (h3 : CbId.renderMethod n ∉ w.renderQueue) :
    unmount w n = w
  ∧ (∀ (w' : World) (n' : Nat) (k : String), hasValue (unmount w' n') n' k = false)
  ∧ (∀ (w' : World) (n' : Nat), unmount (unmount w' n') n' = unmount w' n') := by
  refine ⟨unmount_noop_of w n h1 h2 h3, fun w' n' k => hasValue_unmount w' n' k, ?_⟩
  intro w' n'
  refine unmount_noop_of _ n' ?_ ?_ ?_
  · intro p hp hpn
    have hn : (unmount w' n').nodes
        = w'.nodes.map (fun p => if p.1 = n' then (p.1, unmountNS p.2) else p) := rfl
    rw [hn] at hp
    obtain ⟨q, hq, hfq⟩ := List.mem_map.mp hp
    by_cases hqn : q.1 = n'
    · rw [if_pos hqn] at hfq
      rw [← hfq]
      exact unmountNS_values q.2
    · rw [if_neg hqn] at hfq
      rw [← hfq] at hpn
      exact absurd hpn hqn
  · have hq : (unmount w' n').updateQueue
        = syncCancel (modifyNode w' n' unmountNS).updateQueue (CbId.update n') := rfl
    rw [hq, syncCancel]
    intro hmem
    have := (List.mem_filter.mp hmem).2
    simp at this
  · have hq : (unmount w' n').renderQueue
        = syncCancel (modifyNode w' n' unmountNS).renderQueue (CbId.renderMethod n') := rfl
    rw [hq, syncCancel]
    intro hmem
    have := (List.mem_filter.mp hmem).2
    simp at this

/-- C2 witness: the no-op case of the amended claim at a concrete world
with no bound values and empty queues. -/
theorem unmount_teardown_and_conditional_noop_witness :
    ((∀ p ∈ (freshWorld (Resolved.num 5) (Resolved.num 6)).nodes, p.1 = 0 → p.2.values = [])
  ∧ CbId.update 0 ∉ (freshWorld (Resolved.num 5) (Resolved.num 6)).updateQueue
  ∧ CbId.renderMethod 0 ∉ (freshWorld (Resolved.num 5) (Resolved.num 6)).renderQueue)
  ∧ (unmount (freshWorld (Resolved.num 5) (Resolved.num 6)) 0
      = freshWorld (Resolved.num 5) (Resolved.num 6)
  ∧ (∀ (w' : World) (n' : Nat) (k : String), hasValue (unmount w' n') n' k = false)
  ∧ (∀ (w' : World) (n' : Nat), unmount (unmount w' n') n' = unmount w' n')) :=
  ⟨⟨by decide, by decide, by decide⟩,
   unmount_teardown_and_conditional_noop (freshWorld (Resolved.num 5) (Resolved.num 6)) 0
     (by decide) (by decide) (by decide)⟩

/-- C3 counterexample: mount node `0` on host instance `7`, then unmount;
`getInstance` still returns `7`, not an absent indicator — `unmount` never
clears `element`. -/
theorem instance_survives_unmount :
    getInstance (unmount (refCall (freshWorld (Resolved.num 5) (Resolved.num 6)) 0 (some 7)) 0) 0
      = some 7 :=
  rfl

/-- C3 (amended): `mount` with a null instance errors; a successful
`mount(instance)` stores the instance, so `getInstance` returns it; but
`unmount` leaves `getInstance` unchanged — the handle transitions from
absent to present at the first mount and is never cleared. -/
theorem hostInstance_never_cleared (w : World) (n : Nat) (e : Nat) (ns : NodeState)
    (h : alookup w.nodes n = some ns) :
    mount w n none = Except.error VErr.configurationError
  ∧ mount w n (some e) = Except.ok (refCall w n (some e))
  ∧ getInstance (refCall w n (some e)) n = some e
  ∧ (∀ (w' : World) (n' : Nat), getInstance (unmount w' n') n' = getInstance w' n') := by
  refine ⟨rfl, rfl, ?_, ?_⟩
  · show ((alookup (modifyNode w n (fun ns => mountNS ns e)).nodes n).bind
      (fun ns => ns.element)) = some e
    rw [alookup_modifyNode_self, h]
    show (mountNS ns e).element = some e
    exact mountNS_element ns e
  · intro w' n'
    have hn : (unmount w' n').nodes = (modifyNode w' n' unmountNS).nodes := rfl
    rw [getInstance, hn, alookup_modifyNode_self, getInstance]
    cases alookup w'.nodes n' with
    | none => rfl
    | some ns' => exact unmountNS_element ns'

/-- C3 witness: the amended claim at a concrete world. -/
theorem hostInstance_never_cleared_witness :
    alookup (freshWorld (Resolved.num 5) (Resolved.num 6)).nodes 0 = some (mkNode none)
  ∧ (mount (freshWorld (Resolved.num 5) (Resolved.num 6)) 0 none
      = Except.error VErr.configurationError
  ∧ mount (freshWorld (Resolved.num 5) (Resolved.num 6)) 0 (some 7)
      = Except.ok (refCall (freshWorld (Resolved.num 5) (Resolved.num 6)) 0 (some 7))
  ∧ getInstance (refCall (freshWorld (Resolved.num 5) (Resolved.num 6)) 0 (some 7)) 0 = some 7
  ∧ (∀ (w' : World) (n' : Nat), getInstance (unmount w' n') n' = getInstance w' n')) :=
  ⟨rfl, hostInstance_never_cleared (freshWorld (Resolved.num 5) (Resolved.num 6)) 0 7
    (mkNode none) rfl⟩

/-- C4 counterexample: after mount then unmount the node is `Unmounted` per
the claimed state machine, yet `addValue` subscribes immediately (the
subscription entry is installed at once), because `addValue` tests
`this.element`, which `unmount` never clears. -/
theorem addValue_after_unmount_subscribes_immediately :
    subLookup (addValue
      (unmount (refCall (freshWorld (Resolved.num 5) (Resolved.num 6)) 0 (some 7)) 0)
      0 "x" 0) 0 "x" = some 0 :=
  rfl

/-- C4 (amended): `addValue(k, v)` snapshots `latest[k]` to `v`'s current
reading immediately in every case, and subscribes immediately iff the
node's `element` is set — i.e. iff the node has been mounted at least once,
since `unmount` does not clear `element`.  Before the first mount the
subscription is deferred; after a mount, and equally after a subsequent
unmount, it is immediate. -/
theorem addValue_subscribes_iff_element_set (k : String) (a b : Resolved) :
    subLookup (addValue (freshWorld a b) 0 k 0) 0 k = none
  ∧ latestLookup (addValue (freshWorld a b) 0 k 0) 0 k = some a
  ∧ subLookup (addValue (refCall (freshWorld a b) 0 (some 7)) 0 k 0) 0 k = some 0
  ∧ latestLookup (addValue (refCall (freshWorld a b) 0 (some 7)) 0 k 0) 0 k = some a
  ∧ subLookup (addValue (unmount (refCall (freshWorld a b) 0 (some 7)) 0) 0 k 0) 0 k = some 0
  ∧ latestLookup (addValue (unmount (refCall (freshWorld a b) 0 (some 7)) 0) 0 k 0) 0 k
      = some a := by
  refine ⟨?_, ?_, ?_, ?_, ?_, ?_⟩ <;>
    simp [subLookup, latestLookup, addValue, hasValue, removeValue, modifyNode, alookup, aset,
      aerase, freshWorld, mkNode, mvGet, refCall, mountNS, unmount, unmountNS, subscribeToValue,
      removeValueNS, syncCancel]

/-- C5: `addValue(k, v1)` then `addValue(k, v2)` on a mounted node fully
replaces the binding: the subscription stored for `k` is `v2`'s, the
snapshot holds `v2`'s reading, a subsequent change notification from `v1`
leaves `latest[k]` untouched, and a change from `v2` updates it. -/
theorem addValue_replacement (k : String) (v1 v2 : Nat) (a b x y : Resolved)
    (h : v1 ≠ v2) :
    subLookup (addValue (addValue (pairWorld v1 v2 a b) 0 k v1) 0 k v2) 0 k = some v2
  ∧ latestLookup (addValue (addValue (pairWorld v1 v2 a b) 0 k v1) 0 k v2) 0 k = some b
  ∧ latestLookup (notifyChange (addValue (addValue (pairWorld v1 v2 a b) 0 k v1) 0 k v2) v1 x)
      0 k = some b
  ∧ latestLookup (notifyChange (addValue (addValue (pairWorld v1 v2 a b) 0 k v1) 0 k v2) v2 y)
      0 k = some y := by
  refine ⟨?_, ?_, ?_, ?_⟩ <;>
    simp [subLookup, latestLookup, addValue, hasValue, removeValue, modifyNode, alookup, aset,
      aerase, pairWorld, mkNode, mvGet, mountNS, subscribeToValue, removeValueNS, notifyChange,
      syncSchedule, h, Ne.symm h]

/-- C5 witness: the replacement behaviour at concrete inputs. -/
theorem addValue_replacement_witness :
    (0 : Nat) ≠ 1
  ∧ (subLookup (addValue (addValue (pairWorld 0 1 (Resolved.num 5) (Resolved.num 6)) 0 "x" 0)
        0 "x" 1) 0 "x" = some 1
  ∧ latestLookup (addValue (addValue (pairWorld 0 1 (Resolved.num 5) (Resolved.num 6)) 0 "x" 0)
        0 "x" 1) 0 "x" = some (Resolved.num 6)
  ∧ latestLookup (notifyChange (addValue (addValue
        (pairWorld 0 1 (Resolved.num 5) (Resolved.num 6)) 0 "x" 0) 0 "x" 1) 0
        (Resolved.num 9)) 0 "x" = some (Resolved.num 6)
  ∧ latestLookup (notifyChange (addValue (addValue
        (pairWorld 0 1 (Resolved.num 5) (Resolved.num 6)) 0 "x" 0) 0 "x" 1) 1
        (Resolved.num 9)) 0 "x" = some (Resolved.num 9)) :=
  ⟨by decide,
   addValue_replacement "x" 0 1 (Resolved.num 5) (Resolved.num 6) (Resolved.num 9)
     (Resolved.num 9) (by decide)⟩

/-- C6: `mount(null)` raises ConfigurationError for every world and node;
with two bindings added before mount, a pre-mount change notification does
not touch `latest` (no subscription exists yet), a successful mount stores
the instance and subscribes every tracked value, and after mount a change
notification does update `latest`. -/
theorem mount_null_errors_and_mount_subscribes_all (k1 k2 : String) (a b x y : Resolved)
    (hk : k1 ≠ k2) :
    (∀ (w : World) (n : Nat), mount w n none = Except.error VErr.configurationError)
  ∧ subLookup (addValue (addValue (freshWorld a b) 0 k1 0) 0 k2 1) 0 k1 = none
  ∧ latestLookup (notifyChange (addValue (addValue (freshWorld a b) 0 k1 0) 0 k2 1) 0 x) 0 k1
      = some a
  ∧ mount (addValue (addValue (freshWorld a b) 0 k1 0) 0 k2 1) 0 (some 1)
      = Except.ok (refCall (addValue (addValue (freshWorld a b) 0 k1 0) 0 k2 1) 0 (some 1))
  ∧ getInstance (refCall (addValue (addValue (freshWorld a b) 0 k1 0) 0 k2 1) 0 (some 1)) 0
      = some 1
  ∧ subLookup (refCall (addValue (addValue (freshWorld a b) 0 k1 0) 0 k2 1) 0 (some 1)) 0 k1
      = some 0
  ∧ subLookup (refCall (addValue (addValue (freshWorld a b) 0 k1 0) 0 k2 1) 0 (some 1)) 0 k2
      = some 1
  ∧ latestLookup (notifyChange
        (refCall (addValue (addValue (freshWorld a b) 0 k1 0) 0 k2 1) 0 (some 1)) 0 y) 0 k1
      = some y := by
  refine ⟨fun w n => rfl, ?_, ?_, rfl, ?_, ?_, ?_, ?_⟩ <;>
    simp [subLookup, latestLookup, getInstance, addValue, hasValue, removeValue, modifyNode,
      alookup, aset, aerase, freshWorld, mkNode, mvGet, refCall, mountNS, subscribeToValue,
      removeValueNS, notifyChange, syncSchedule, hk, Ne.symm hk]

/-- C6 witness: the mount semantics at concrete inputs. -/
theorem mount_null_errors_and_mount_subscribes_all_witness :
    "x" ≠ "y"
  ∧ ((∀ (w : World) (n : Nat), mount w n none = Except.error VErr.configurationError)
  ∧ subLookup (addValue (addValue (freshWorld (Resolved.num 5) (Resolved.num 6)) 0 "x" 0)
        0 "y" 1) 0 "x" = none
  ∧ latestLookup (notifyChange (addValue (addValue (freshWorld (Resolved.num 5)
        (Resolved.num 6)) 0 "x" 0) 0 "y" 1) 0 (Resolved.num 7)) 0 "x" = some (Resolved.num 5)
  ∧ mount (addValue (addValue (freshWorld (Resolved.num 5) (Resolved.num 6)) 0 "x" 0) 0 "y" 1)
        0 (some 1)
      = Except.ok (refCall (addValue (addValue (freshWorld (Resolved.num 5) (Resolved.num 6))
        0 "x" 0) 0 "y" 1) 0 (some 1))
  ∧ getInstance (refCall (addValue (addValue (freshWorld (Resolved.num 5) (Resolved.num 6))
        0 "x" 0) 0 "y" 1) 0 (some 1)) 0 = some 1
  ∧ subLookup (refCall (addValue (addValue (freshWorld (Resolved.num 5) (Resolved.num 6))
        0 "x" 0) 0 "y" 1) 0 (some 1)) 0 "x" = some 0
  ∧ subLookup (refCall (addValue (addValue (freshWorld (Resolved.num 5) (Resolved.num 6))
        0 "x" 0) 0 "y" 1) 0 (some 1)) 0 "y" = some 1
  ∧ latestLookup (notifyChange (refCall (addValue (addValue (freshWorld (Resolved.num 5)
        (Resolved.num 6)) 0 "x" 0) 0 "y" 1) 0 (some 1)) 0 (Resolved.num 8)) 0 "x"
      = some (Resolved.num 8)) :=
  ⟨by decide,
   mount_null_errors_and_mount_subscribes_all "x" "y" (Resolved.num 5) (Resolved.num 6)
     (Resolved.num 7) (Resolved.num 8) (by decide)⟩

/-- C7: `getValue` returns the bound value when one exists (for any
optional default, leaving the world unchanged); with no binding and a
default it constructs a fresh MotionValue reading the default, registers it
(`hasValue` becomes true, `latest[k]` equals the default) and returns it;
with no binding and no default it returns `none`, not an error. -/
theorem getValue_semantics (k : String) (a b d : Resolved) (dv : Option Resolved) :
    getValue (addValue (freshWorld a b) 0 k 0) 0 k dv = (addValue (freshWorld a b) 0 k 0, some 0)
  ∧ (getValue (freshWorld a b) 0 k (some d)).2 = some 2
  ∧ hasValue (getValue (freshWorld a b) 0 k (some d)).1 0 k = true
  ∧ latestLookup (getValue (freshWorld a b) 0 k (some d)).1 0 k = some d
  ∧ mvGet (getValue (freshWorld a b) 0 k (some d)).1 2 = d
  ∧ getValue (freshWorld a b) 0 k none = (freshWorld a b, none) := by
  refine ⟨?_, ?_, ?_, ?_, ?_, ?_⟩ <;>
    simp [getValue, latestLookup, addValue, hasValue, removeValue, modifyNode, alookup, aset,
      aerase, freshWorld, mkNode, mvGet, subscribeToValue, removeValueNS]

/-- C8: the static-value setter writes directly into `latest` — for a
single key or for every entry of a batch mapping — and leaves the `values`
map and the `valueSubscriptions` map of every node unchanged. -/
theorem setStaticValues_only_touch_latest (w : World) (n m : Nat) (k k1 k2 : String)
    (val a b c : Resolved) (kvs : List (String × Resolved)) (ns : NodeState)
    (h : alookup w.nodes n = some ns) (hk : k1 ≠ k2) :
    (alookup (setStaticValue w n k val).nodes m).map NodeState.values
      = (alookup w.nodes m).map NodeState.values
  ∧ (alookup (setStaticValue w n k val).nodes m).map NodeState.valueSubscriptions
      = (alookup w.nodes m).map NodeState.valueSubscriptions
  ∧ (alookup (setStaticValues w n kvs).nodes m).map NodeState.values
      = (alookup w.nodes m).map NodeState.values
  ∧ (alookup (setStaticValues w n kvs).nodes m).map NodeState.valueSubscriptions
      = (alookup w.nodes m).map NodeState.valueSubscriptions
  ∧ latestLookup (setStaticValue w n k val) n k = some val
  ∧ latestLookup (setStaticValues (freshWorld a b) 0 [(k1, val), (k2, c)]) 0 k1 = some val
  ∧ latestLookup (setStaticValues (freshWorld a b) 0 [(k1, val), (k2, c)]) 0 k2 = some c := by
  refine ⟨?_, ?_, ?_, ?_, ?_, ?_, ?_⟩
  · exact alookup_modifyNode_map _ _ _ _ _ (fun ns' => rfl)
  · exact alookup_modifyNode_map _ _ _ _ _ (fun ns' => rfl)
  · refine alookup_modifyNode_map _ _ _ _ _ (fun ns' => ?_)
    rw [fold_static_eq]
  · refine alookup_modifyNode_map _ _ _ _ _ (fun ns' => ?_)
    rw [fold_static_eq]
  · rw [latestLookup]
    show (alookup (modifyNode w n _).nodes n).bind _ = _
    rw [alookup_modifyNode_self, h]
    show alookup (aset ns.latest k val) k = some val
    rw [alookup_aset, if_pos rfl]
  · simp [latestLookup, setStaticValues, modifyNode, alookup, aset, freshWorld, mkNode,
      setSingleStaticValue, hk, Ne.symm hk]
  · simp [latestLookup, setStaticValues, modifyNode, alookup, aset, freshWorld, mkNode,
      setSingleStaticValue, hk, Ne.symm hk]

/-- C8 witness: the setter semantics at concrete inputs. -/
theorem setStaticValues_only_touch_latest_witness :
    (alookup (freshWorld (Resolved.num 5) (Resolved.num 6)).nodes 0 = some (mkNode none)
  ∧ "x" ≠ "y")
  ∧ ((alookup (setStaticValue (freshWorld (Resolved.num 5) (Resolved.num 6)) 0 "z"
        (Resolved.num 1)).nodes 0).map NodeState.values
      = (alookup (freshWorld (Resolved.num 5) (Resolved.num 6)).nodes 0).map NodeState.values
  ∧ (alookup (setStaticValue (freshWorld (Resolved.num 5) (Resolved.num 6)) 0 "z"
        (Resolved.num 1)).nodes 0).map NodeState.valueSubscriptions
      = (alookup (freshWorld (Resolved.num 5) (Resolved.num 6)).nodes 0).map
          NodeState.valueSubscriptions
  ∧ (alookup (setStaticValues (freshWorld (Resolved.num 5) (Resolved.num 6)) 0
        [("q", Resolved.num 2)]).nodes 0).map NodeState.values
      = (alookup (freshWorld (Resolved.num 5) (Resolved.num 6)).nodes 0).map NodeState.values
  ∧ (alookup (setStaticValues (freshWorld (Resolved.num 5) (Resolved.num 6)) 0
        [("q", Resolved.num 2)]).nodes 0).map NodeState.valueSubscriptions
      = (alookup (freshWorld (Resolved.num 5) (Resolved.num 6)).nodes 0).map
          NodeState.valueSubscriptions
  ∧ latestLookup (setStaticValue (freshWorld (Resolved.num 5) (Resolved.num 6)) 0 "z"
        (Resolved.num 1)) 0 "z" = some (Resolved.num 1)
  ∧ latestLookup (setStaticValues (freshWorld (Resolved.num 5) (Resolved.num 6)) 0
        [("x", Resolved.num 1), ("y", Resolved.num 3)]) 0 "x" = some (Resolved.num 1)
  ∧ latestLookup (setStaticValues (freshWorld (Resolved.num 5) (Resolved.num 6)) 0
        [("x", Resolved.num 1), ("y", Resolved.num 3)]) 0 "y" = some (Resolved.num 3)) :=
  ⟨⟨rfl, by decide⟩,
   setStaticValues_only_touch_latest (freshWorld (Resolved.num 5) (Resolved.num 6)) 0 0
     "z" "x" "y" (Resolved.num 1) (Resolved.num 5) (Resolved.num 6) (Resolved.num 3)
     [("q", Resolved.num 2)] (mkNode none) rfl (by decide)⟩

/-- C10: the pre-bound `update` closure calls `config.onUpdate` with a
non-null assertion.  A value change with `onUpdate` set enqueues the
update; replacing the config with one lacking `onUpdate` before the tick
does not dequeue it, and the tick then throws (dereferences an absent
function); if `onUpdate` is kept until the tick, the update runs normally. -/
theorem pending_update_throws_without_onUpdate (k : String) (a b x : Resolved) :
    (notifyChange (updateConfig (addValue (mountedWorld a b) 0 k 0) 0 true) 0 x).updateQueue
      = [CbId.update 0]
  ∧ (updateConfig (notifyChange (updateConfig (addValue (mountedWorld a b) 0 k 0) 0 true) 0 x)
        0 false).updateQueue = [CbId.update 0]
  ∧ (runTick (updateConfig
        (notifyChange (updateConfig (addValue (mountedWorld a b) 0 k 0) 0 true) 0 x)
        0 false)).1 = [TickEvent.updateThrew 0]
  ∧ (runTick (notifyChange (updateConfig (addValue (mountedWorld a b) 0 k 0) 0 true) 0 x)).1
      = [TickEvent.updated 0] := by
  refine ⟨?_, ?_, ?_, ?_⟩ <;>
    simp [runTick, runCb, notifyChange, updateConfig, addValue, hasValue, removeValue,
      modifyNode, alookup, aset, aerase, mountedWorld, mkNode, mvGet, mountNS,
      subscribeToValue, removeValueNS, syncSchedule]

end VE
